import Mathlib

/-!
A verification development for the `IrcBot.py` single-file IRC bot.

The Python source is shallowly embedded: the compiled regular expression
`:([^!]+)!(\S+)\s+(\S+)\s+:?(\S+)\s*(?:[:+-]+(.*))?(?:[:+-]+(.*))?` used by
`Bot.handle_msg` is embedded as an executable greedy backtracking matcher
(`patMatch`), the `Event` class as list operations, `Config.get` /
`Bot.on_privmsg` / `Bot.on_command` / `Bot.send` / one iteration of
`Bot.mainloop` as pure functions over character lists.  Strings are
`List Char`; Python `None` outcomes are `Option`.
-/

def strData (s : String) : List Char := s.data

/-- CPython whitespace for `str` (`Py_UNICODE_ISSPACE`): the predicate
behind the pattern's `\s`, behind `str.rstrip()`, and behind
`str.split()`.  The exact codepoint set is 09-0D, 1C-1F, 20, 85, A0,
1680, 2000-200A, 2028, 2029, 202F, 205F, 3000. -/
def isWS (c : Char) : Bool :=
  (0x09 ≤ c.toNat && c.toNat ≤ 0x0d) ||
  (0x1c ≤ c.toNat && c.toNat ≤ 0x20) ||
  c.toNat = 0x85 || c.toNat = 0xa0 || c.toNat = 0x1680 ||
  (0x2000 ≤ c.toNat && c.toNat ≤ 0x200a) ||
  c.toNat = 0x2028 || c.toNat = 0x2029 || c.toNat = 0x202f ||
  c.toNat = 0x205f || c.toNat = 0x3000

/-- Python `\S`. -/
def nonWS (c : Char) : Bool := !(isWS c)

/-- The character class `[^!]`. -/
def notBang (c : Char) : Bool := !(c = '!')

/-- The character class `[:+-]`. -/
def isMark (c : Char) : Bool := c = ':' || c = '+' || c = '-'

/-- Python `.` (anything but a newline, DOTALL being off). -/
def notNL (c : Char) : Bool := !(c = '\n')

/-- Longest prefix whose characters all satisfy `p` (the text a greedy
repetition of a character class consumes first). -/
def takeRun (p : Char → Bool) : List Char → List Char
  | [] => []
  | c :: l => if p c then c :: takeRun p l else []

/-- The remainder after `takeRun`. -/
def dropRun (p : Char → Bool) : List Char → List Char
  | [] => []
  | c :: l => if p c then dropRun p l else c :: l

/-- Python `str.rstrip()`. -/
def rstrip (l : List Char) : List Char := (dropRun isWS l.reverse).reverse

section RegexEngine

variable {α : Type}

/-- Backtracking driver for a greedy `+` repetition: try handing `n`
characters of `run` to the continuation, for `n` from the argument down
to `1`. -/
def tryTake1 (k : List Char → List Char → Option α) (run rest : List Char) :
    Nat → Option α
  | 0 => none
  | n + 1 =>
    match k (run.take (n + 1)) (run.drop (n + 1) ++ rest) with
    | some v => some v
    | none => tryTake1 k run rest n

/-- Backtracking driver for a greedy `*` repetition: like `tryTake1` but
also tries the empty match. -/
def tryTake0 (k : List Char → List Char → Option α) (run rest : List Char) :
    Nat → Option α
  | 0 => k [] (run ++ rest)
  | n + 1 =>
    match k (run.take (n + 1)) (run.drop (n + 1) ++ rest) with
    | some v => some v
    | none => tryTake0 k run rest n

/-- Greedy `p+` over character class `p`, in CPS so that failure of a later
part of the pattern backtracks into shorter matches. -/
def matchPlus (p : Char → Bool) (s : List Char)
    (k : List Char → List Char → Option α) : Option α :=
  tryTake1 k (takeRun p s) (dropRun p s) (takeRun p s).length

/-- Greedy `p*`. -/
def matchStar (p : Char → Bool) (s : List Char)
    (k : List Char → List Char → Option α) : Option α :=
  tryTake0 k (takeRun p s) (dropRun p s) (takeRun p s).length

/-- Greedy single-character option `p?`: try consuming one matching
character first, fall back to consuming nothing. -/
def matchOpt (p : Char → Bool) (s : List Char)
    (k : List Char → Option α) : Option α :=
  match s with
  | [] => k []
  | c :: rest =>
    if p c then
      match k rest with
      | some v => some v
      | none => k (c :: rest)
    else k (c :: rest)

/-- A literal character of the pattern. -/
def matchChar (c : Char) (s : List Char) (k : List Char → Option α) :
    Option α :=
  match s with
  | [] => none
  | c2 :: rest => if c2 = c then k rest else none

/-- The optional non-capturing group `(?:[:+-]+(.*))?` of the source
pattern: greedily try one-or-more marker characters followed by the
captured free text; if no split succeeds, capture nothing. -/
def optTrail (s : List Char)
    (k : Option (List Char) → List Char → Option α) : Option α :=
  match matchPlus isMark s
      (fun _ s2 => matchStar notNL s2 (fun g rest => k (some g) rest)) with
  | some v => some v
  | none => k none s

end RegexEngine

/-- The six capture groups of `Bot.__pat`. -/
abbrev Groups :=
  List Char × List Char × List Char × List Char ×
    Option (List Char) × Option (List Char)

/-- `Bot.__pat.match(data)`: the anchored match of
`:([^!]+)!(\S+)\s+(\S+)\s+:?(\S+)\s*(?:[:+-]+(.*))?(?:[:+-]+(.*))?`
(`re.match` anchors at the start only, so any unconsumed suffix is
accepted). -/
def patMatch (s : List Char) : Option Groups :=
  matchChar ':' s (fun s1 =>
    matchPlus notBang s1 (fun g1 s2 =>
      matchChar '!' s2 (fun s3 =>
        matchPlus nonWS s3 (fun g2 s4 =>
          matchPlus isWS s4 (fun _ s5 =>
            matchPlus nonWS s5 (fun g3 s6 =>
              matchPlus isWS s6 (fun _ s7 =>
                matchOpt (fun c => c = ':') s7 (fun s8 =>
                  matchPlus nonWS s8 (fun g4 s9 =>
                    matchStar isWS s9 (fun _ s10 =>
                      optTrail s10 (fun g5 s11 =>
                        optTrail s11 (fun g6 _ =>
                          some (g1, g2, g3, g4, g5, g6)))))))))))))

/-- The `com` dictionary built by `Bot.handle_msg`:
`dict(zip(['nick','user','action','recipient','message'], rstripped
non-None groups))` plus `com['orig'] = data`.  When the match succeeds the
first four groups are always present, so they land on the first four keys;
group 5 (if present) lands on `message`; group 6 has no key left in the
zip and is dropped. -/
structure Com where
  nick : List Char
  user : List Char
  action : List Char
  recipient : List Char
  message : Option (List Char)
  orig : List Char

/-- `Bot.handle_msg`, up to the construction of `com` (`None` when the
regular expression does not match). -/
def comOf (data : List Char) : Option Com :=
  (patMatch data).map fun g =>
    ⟨rstrip g.1, rstrip g.2.1, rstrip g.2.2.1, rstrip g.2.2.2.1,
      g.2.2.2.2.1.map rstrip, data⟩

/-! ## The `Event` class

Handlers are identified by their (decidable) identity; we model them by
natural numbers.  `Event.__handlers` is the list, in subscription order. -/

/-- `Event.__iadd__`: append unless already present. -/
def subscribe (h : Nat) (l : List Nat) : List Nat :=
  if h ∈ l then l else l ++ [h]

/-- `Event.__isub__`: Python `list.remove` deletes the first occurrence;
when `h` is absent the guard skips the removal (no error). -/
def unsubscribe (h : Nat) (l : List Nat) : List Nat :=
  if h ∈ l then l.erase h else l

/-- `Event.__call__`: call each handler in order.  `beh h = true` means
handler `h` returns normally, `beh h = false` means it raises.  There is
no `try` in the source loop, so a raise aborts the loop and propagates:
the result is the list of handlers actually invoked together with the
handler whose exception escaped (if any). -/
def publishRun (beh : Nat → Bool) : List Nat → List Nat × Option Nat
  | [] => ([], none)
  | h :: rest =>
    if beh h then
      let r := publishRun beh rest
      (h :: r.1, r.2)
    else ([h], some h)

/-- `Event.__call__` as a state transformer: the loop only reads
`__handlers`, so the handler list after the call is unchanged. -/
def eventCall (beh : Nat → Bool) (l : List Nat) :
    (List Nat × Option Nat) × List Nat :=
  (publishRun beh l, l)

/-! ## `Bot` attribute lookup (`handle_msg` dispatch)

`handle_msg` executes `getattr(self, 'irc_{0}'.format(com['action']))`.
The attributes a `Bot` instance actually has are its `__slots__` entries —
which Python name-mangles to `_Bot__...` because they start with two
underscores — plus the methods defined on the class.  `getattr` with a
name outside this table raises `AttributeError`, which the surrounding
`except AttributeError: pass` swallows. -/

def botAttrNames : List (List Char) :=
  [strData "_Bot__config", strData "_Bot__connected", strData "_Bot__debug",
   strData "_Bot__nick", strData "_Bot__owners", strData "_Bot__pat",
   strData "_Bot__plugins", strData "_Bot__server", strData "_Bot__soc",
   strData "_Bot__irc_COMMAND", strData "_Bot__irc_JOIN",
   strData "_Bot__irc_KICK", strData "_Bot__irc_MODE",
   strData "_Bot__irc_NOTICE", strData "_Bot__irc_PRIVMSG",
   strData "__init__", strData "init_events", strData "connect",
   strData "mainloop", strData "handle_msg", strData "send",
   strData "send_action", strData "join", strData "quit",
   strData "send_msg", strData "debug_out", strData "on_command",
   strData "on_privmsg", strData "on_kick", strData "on_mode"]

/-- The attribute `handle_msg` asks `getattr` for: `some` attribute name
when the lookup succeeds, `none` when it raises `AttributeError` (then
swallowed by the `except`). -/
def dispatchTarget (action : List Char) : Option (List Char) :=
  if strData "irc_" ++ action ∈ botAttrNames then
    some (strData "irc_" ++ action)
  else none

/-- `Bot.handle_msg` end to end: parse `data`; on a match, look up the
event attribute named after the action.  The result is the attribute that
would be called, `none` when nothing is dispatched. -/
def handleMsgDispatch (data : List Char) : Option (List Char) :=
  match comOf data with
  | none => none
  | some com => dispatchTarget com.action

/-- Outbound strings produced by one `handle_msg` call.  The only way
`handle_msg` can send is through a dispatched event handler; the branch
below is annotated with what each dispatch outcome yields (the `some`
branch is unreachable: no attribute of the instance is named `irc_…`,
see `dispatchTarget_eq_none`). -/
def handleMsgSends (data : List Char) : List (List Char) :=
  match handleMsgDispatch data with
  | none => []
  | some _ => []

/-! ## `Config` -/

/-- The mangled `Config.__slots__` entries (again, leading `__` names in
the class body are mangled to `_Config__...`). -/
def configSlots : List (List Char) :=
  [strData "_Config__command_char", strData "_Config__channel",
   strData "_Config__file", strData "_Config__nick",
   strData "_Config__password", strData "_Config__server"]

/-- `Config.get`: format the mangled attribute name, return its value if
`hasattr` holds, otherwise fall through and implicitly return `None`.
`vals` gives the current value of each existing attribute (itself
`Option`, since slots start out as `None`); both the fall-through and a
`None`-valued slot surface as `none` to the caller, as in Python. -/
def configGet (vals : List Char → Option (List Char))
    (setting : List Char) : Option (List Char) :=
  if strData "_Config__" ++ setting ∈ configSlots then
    vals (strData "_Config__" ++ setting)
  else none

/-! ## Session-controller handlers -/

/-- Python `str.split()` (split on whitespace runs, no empty tokens). -/
def splitWSAux : List Char → List Char → List (List Char)
  | [], acc => if acc = [] then [] else [acc.reverse]
  | c :: rest, acc =>
    if isWS c then
      if acc = [] then splitWSAux rest [] else acc.reverse :: splitWSAux rest []
    else splitWSAux rest (c :: acc)

def splitWS (s : List Char) : List (List Char) := splitWSAux s []

/-- `Bot.on_privmsg`: publish the `COMMAND` event iff the first character
of the message text equals the configured command character fetched via
`config.get('cchar')`.  Returns the token list handed to the `COMMAND`
event (`data['message'] = split(data['message'][1:])`), or `none` when no
publish happens.  The source tokenizes with `shlex.split`, which agrees
with whitespace splitting on quote- and escape-free text (the guard never
succeeds, so the difference is unreachable anyway). -/
def on_privmsg (vals : List Char → Option (List Char))
    (message : List Char) : Option (List (List Char)) :=
  match message with
  | [] => none
  | m0 :: rest =>
    if configGet vals (strData "cchar") = some [m0] then
      some (splitWS rest)
    else none

/-- The hardcoded `Bot.__owners` tuple. -/
def owners : List (List Char) := [strData "JaINTP"]

/-- Effects a handler can trigger on the session. -/
inductive BotAct
  | send (s : List Char)
  | sockClose
  | sysExit (code : Nat)
deriving DecidableEq

/-- `Bot.quit`: `send('QUIT')`, `soc.close()`, `exit(0)`. -/
def quitActs : List BotAct :=
  [.send (strData "QUIT"), .sockClose, .sysExit 0]

/-- `Bot.on_command`: quit iff the sender's nick is in `__owners` and the
first command token (`data['message'][0]`) is `'die'`. -/
def on_command (nick tok0 : List Char) : List BotAct :=
  if nick ∈ owners then
    if tok0 = strData "die" then quitActs else []
  else []

/-! ## Send path and read loop -/

def crlf : List Char := strData "\r\n"

/-- `Bot.debug_out`: print only in debug mode; split on newlines when
present; skip empty items. -/
def debug_out (debug : Bool) (s : List Char) : List (List Char) :=
  if debug then
    (if '\n' ∈ s then (s.splitOn '\n') else [s]).filter (· ≠ [])
  else []

/-- Outcome of one `Bot.send` call. -/
structure SendOutcome where
  /-- The bytes handed to `socket.send` when the write succeeds. -/
  wire : Option (List Char)
  /-- The exception propagated to `send`'s caller (there is none: the
  `except Exception` clause catches everything). -/
  callerExc : Option (List Char)
  /-- Debug output produced. -/
  log : List (List Char)
deriving DecidableEq

/-- `Bot.send`: format `'{0}\r\n'` around the string and transmit; on any
exception, log `str(e)` through `debug_out` and return normally.
`sockErr = some e` models `socket.send` raising with message `e`. -/
def send (debug : Bool) (sockErr : Option (List Char))
    (s : List Char) : SendOutcome :=
  match sockErr with
  | none => ⟨some (s ++ crlf), none, []⟩
  | some e => ⟨none, none, debug_out debug e⟩

/-- `Bot.send_action`: `'{0} {1}'.format(action, argument_string)`. -/
def sendActionArg (action arg : List Char) : List Char :=
  action ++ ' ' :: arg

def lastD (l : List (List Char)) : List Char :=
  l.getLastD []

/-- Python `sub in s` (substring containment). -/
def hasSub (pat : List Char) : List Char → Bool
  | [] => pat.isEmpty
  | c :: rest => pat.isPrefixOf (c :: rest) || hasSub pat rest

/-- One iteration of the `while self.__connected` loop in
`Bot.mainloop`: the strings handed to `Bot.send`, in order.  A chunk
starting with `PING` is answered with `PONG <last whitespace-token>`;
anything else goes through `handle_msg`; independently, a chunk containing
`End of /MOTD` triggers a `JOIN` of the configured channel. -/
def mainloopIter (channel data : List Char) : List (List Char) :=
  (if (strData "PING").isPrefixOf data then
    [sendActionArg (strData "PONG") (lastD (splitWS data))]
  else handleMsgSends data) ++
  (if hasSub (strData "End of /MOTD") data then
    [sendActionArg (strData "JOIN") channel]
  else [])

/-! ## Lemmas about the matcher -/

theorem takeRun_append (p : Char → Bool) (xs ys : List Char)
    (hall : ∀ x ∈ xs, p x = true) (hys : ∀ y ∈ ys.take 1, p y = false) :
    takeRun p (xs ++ ys) = xs ∧ dropRun p (xs ++ ys) = ys := by
  induction xs with
  | nil =>
    cases ys with
    | nil => exact ⟨rfl, rfl⟩
    | cons y ys2 =>
      have hy : p y = false := hys y (by simp)
      simp [takeRun, dropRun, hy]
  | cons x xs2 ih =>
    have hx : p x = true := hall x (by simp)
    have ih2 := ih (fun a ha => hall a (by simp [ha]))
    simp [takeRun, dropRun, hx, ih2.1, ih2.2]

theorem takeRun_all (p : Char → Bool) (xs : List Char)
    (hall : ∀ x ∈ xs, p x = true) :
    takeRun p xs = xs ∧ dropRun p xs = [] := by
  induction xs with
  | nil => exact ⟨rfl, rfl⟩
  | cons x xs2 ih =>
    have hx : p x = true := hall x (by simp)
    have ih2 := ih (fun a ha => hall a (by simp [ha]))
    simp [takeRun, dropRun, hx, ih2.1, ih2.2]

theorem tryTake1_full {α : Type} (k : List Char → List Char → Option α)
    (run rest : List Char) (v : α) (hne : run ≠ [])
    (hk : k run rest = some v) :
    tryTake1 k run rest run.length = some v := by
  cases hl : run.length with
  | zero => exact absurd (List.eq_nil_of_length_eq_zero hl) hne
  | succ n =>
    have h1 : run.take (n + 1) = run := by
      rw [← hl]; exact List.take_length run
    have h2 : run.drop (n + 1) = [] := by
      rw [← hl]; exact List.drop_length run
    simp [tryTake1, h1, h2, hk]

theorem tryTake0_full {α : Type} (k : List Char → List Char → Option α)
    (run rest : List Char) (v : α) (hk : k run rest = some v) :
    tryTake0 k run rest run.length = some v := by
  cases hl : run.length with
  | zero =>
    have h0 : run = [] := List.eq_nil_of_length_eq_zero hl
    subst h0
    simpa [tryTake0] using hk
  | succ n =>
    have h1 : run.take (n + 1) = run := by
      rw [← hl]; exact List.take_length run
    have h2 : run.drop (n + 1) = [] := by
      rw [← hl]; exact List.drop_length run
    simp [tryTake0, h1, h2, hk]

/-- A greedy `p+` whose maximal run is immediately accepted by the rest of
the pattern matches exactly that run. -/
theorem matchPlus_split {α : Type} (p : Char → Bool) (xs ys : List Char)
    (k : List Char → List Char → Option α) (v : α) (hne : xs ≠ [])
    (hall : ∀ x ∈ xs, p x = true) (hys : ∀ y ∈ ys.take 1, p y = false)
    (hk : k xs ys = some v) :
    matchPlus p (xs ++ ys) k = some v := by
  obtain ⟨h1, h2⟩ := takeRun_append p xs ys hall hys
  unfold matchPlus
  rw [h1, h2]
  exact tryTake1_full k xs ys v hne hk

theorem matchStar_split {α : Type} (p : Char → Bool) (xs ys : List Char)
    (k : List Char → List Char → Option α) (v : α)
    (hall : ∀ x ∈ xs, p x = true) (hys : ∀ y ∈ ys.take 1, p y = false)
    (hk : k xs ys = some v) :
    matchStar p (xs ++ ys) k = some v := by
  obtain ⟨h1, h2⟩ := takeRun_append p xs ys hall hys
  unfold matchStar
  rw [h1, h2]
  exact tryTake0_full k xs ys v hk

theorem matchStar_all {α : Type} (p : Char → Bool) (s : List Char)
    (k : List Char → List Char → Option α) (v : α)
    (hall : ∀ x ∈ s, p x = true) (hk : k s [] = some v) :
    matchStar p s k = some v := by
  obtain ⟨h1, h2⟩ := takeRun_all p s hall
  unfold matchStar
  rw [h1, h2]
  exact tryTake0_full k s [] v hk

theorem optTrail_nil {α : Type} (k : Option (List Char) → List Char → Option α) :
    optTrail [] k = k none [] := rfl

/-- `(?:[:+-]+(.*))?` on marker characters followed by newline-free text
whose first character is not a marker: capture exactly that text. -/
theorem optTrail_split {α : Type} (ms body : List Char)
    (k : Option (List Char) → List Char → Option α) (v : α) (hms : ms ≠ [])
    (hallm : ∀ c ∈ ms, isMark c = true)
    (hbody : ∀ c ∈ body.take 1, isMark c = false)
    (hnl : ∀ c ∈ body, notNL c = true)
    (hk : k (some body) [] = some v) :
    optTrail (ms ++ body) k = some v := by
  unfold optTrail
  rw [matchPlus_split isMark ms body _ v hms hallm hbody
    (matchStar_all notNL body _ v hnl hk)]

/-! ## Small facts about `rstrip` and the attribute tables -/

theorem dropRun_eq_self (p : Char → Bool) (l : List Char)
    (h : ∀ c ∈ l.take 1, p c = false) : dropRun p l = l := by
  cases l with
  | nil => rfl
  | cons c t => simp [dropRun, h c (by simp)]

theorem rstrip_of_nonWS (l : List Char)
    (h : ∀ c ∈ l, isWS c = false) : rstrip l = l := by
  unfold rstrip
  rw [dropRun_eq_self isWS l.reverse
    (fun c hc => h c (List.mem_reverse.mp (List.mem_of_mem_take hc)))]
  exact List.reverse_reverse l

/-- No attribute of a `Bot` instance is named `irc_…`: the event slots got
name-mangled to `_Bot__irc_…`, so the `getattr` in `handle_msg` always
raises `AttributeError`. -/
theorem dispatchTarget_eq_none (action : List Char) :
    dispatchTarget action = none := by
  unfold dispatchTarget
  rw [if_neg]
  intro hmem
  have h4 : ∀ n ∈ botAttrNames, n.take 4 ≠ strData "irc_" := by decide
  apply h4 _ hmem
  have hlen : (strData "irc_").length = 4 := rfl
  rw [← hlen, List.take_left (strData "irc_")]

theorem matchChar_cons {α : Type} (c : Char) (rest : List Char)
    (k : List Char → Option α) : matchChar c (c :: rest) k = k rest := by
  simp [matchChar]

theorem matchOpt_skip {α : Type} (p : Char → Bool) (c : Char) (rest : List Char)
    (k : List Char → Option α) (h : p c = false) :
    matchOpt p (c :: rest) k = k (c :: rest) := by
  simp [matchOpt, h]

theorem matchChar_ne {α : Type} (c c0 : Char) (rest : List Char)
    (k : List Char → Option α) (h : ¬ (c0 = c)) :
    matchChar c (c0 :: rest) k = none := by
  simp [matchChar, h]

/-- A line of the shape `:nick!user@host COMMAND target :trailing` with
single-space separators. -/
def mkLine (nick uh cmd tgt tr : List Char) : List Char :=
  ':' :: (nick ++ '!' :: (uh ++ ' ' :: (cmd ++ ' ' :: (tgt ++ ' ' :: ':' :: tr))))

theorem take1_false_of_head {p : Char → Bool} {c : Char} (l : List Char)
    (h : p c = false) : ∀ y ∈ (c :: l).take 1, p y = false := by
  intro y hy; simp at hy; subst hy; exact h

theorem take1_false_of_all {p : Char → Bool} {xs : List Char} (ys : List Char)
    (hne : xs ≠ []) (h : ∀ c ∈ xs, p c = false) :
    ∀ y ∈ (xs ++ ys).take 1, p y = false := by
  cases xs with
  | nil => exact absurd rfl hne
  | cons a l =>
    intro y hy
    have hy2 : y = a := by simpa using hy
    rw [hy2]
    exact h a (by simp)

/-- On a well-formed `:nick!user@host COMMAND target :trailing` line the
source pattern captures the five components in groups 1–5 and leaves
group 6 empty. -/
theorem patMatch_wellformed (nick uh cmd tgt tr : List Char)
    (hnick_ne : nick ≠ []) (hnick : ∀ c ∈ nick, notBang c = true)
    (huh_ne : uh ≠ []) (huh : ∀ c ∈ uh, isWS c = false)
    (hcmd_ne : cmd ≠ []) (hcmd : ∀ c ∈ cmd, isWS c = false)
    (htgt_ne : tgt ≠ []) (htgt : ∀ c ∈ tgt, isWS c = false)
    (htgt0 : ∀ c ∈ tgt.take 1, ¬ (c = ':'))
    (htr_nl : ∀ c ∈ tr, notNL c = true)
    (htr0 : ∀ c ∈ tr.take 1, isMark c = false) :
    patMatch (mkLine nick uh cmd tgt tr) =
      some (nick, uh, cmd, tgt, some tr, none) := by
  have hnonWS_uh : ∀ c ∈ uh, nonWS c = true := by
    intro c hc; simp [nonWS, huh c hc]
  have hnonWS_cmd : ∀ c ∈ cmd, nonWS c = true := by
    intro c hc; simp [nonWS, hcmd c hc]
  have hnonWS_tgt : ∀ c ∈ tgt, nonWS c = true := by
    intro c hc; simp [nonWS, htgt c hc]
  unfold mkLine patMatch
  rw [matchChar_cons]
  -- group 1: [^!]+ consumes the nick, stopped by '!'
  refine matchPlus_split notBang nick _ _ _ hnick_ne hnick
    (take1_false_of_head _ (by decide)) ?_
  simp only [matchChar_cons]
  -- group 2: \S+ consumes user@host, stopped by the space
  refine matchPlus_split nonWS uh _ _ _ huh_ne hnonWS_uh
    (take1_false_of_head _ (by decide)) ?_
  -- \s+ consumes the single separating space, stopped by the command head
  show matchPlus isWS ([' '] ++ (cmd ++ ' ' :: (tgt ++ ' ' :: ':' :: tr))) _ = _
  refine matchPlus_split isWS [' '] _ _ _ (by simp) (by decide)
    (take1_false_of_all _ hcmd_ne hcmd) ?_
  -- group 3: \S+ consumes the command
  refine matchPlus_split nonWS cmd _ _ _ hcmd_ne hnonWS_cmd
    (take1_false_of_head _ (by decide)) ?_
  -- \s+ consumes the space before the target
  show matchPlus isWS ([' '] ++ (tgt ++ ' ' :: ':' :: tr)) _ = _
  refine matchPlus_split isWS [' '] _ _ _ (by simp) (by decide)
    (take1_false_of_all _ htgt_ne htgt) ?_
  -- :? does not consume: the target does not start with a colon
  obtain ⟨t0, tgt1, rfl⟩ := List.exists_cons_of_ne_nil htgt_ne
  show matchOpt _ ((t0 :: tgt1) ++ (' ' :: ':' :: tr)) _ = _
  simp only [List.cons_append]
  rw [matchOpt_skip _ _ _ _ (by simpa using htgt0 t0 (by simp))]
  -- group 4: \S+ consumes the target, stopped by the space
  show matchPlus nonWS ((t0 :: tgt1) ++ (' ' :: ':' :: tr)) _ = _
  refine matchPlus_split nonWS (t0 :: tgt1) _ _ _ (by simp) hnonWS_tgt
    (take1_false_of_head _ (by decide)) ?_
  -- \s* consumes the space before the trailing marker
  show matchStar isWS ([' '] ++ (':' :: tr)) _ = _
  refine matchStar_split isWS [' '] _ _ _ (by decide)
    (take1_false_of_head _ (by decide)) ?_
  -- (?:[:+-]+(.*))? consumes ':' then captures the trailing text
  show optTrail ([':'] ++ tr) _ = _
  refine optTrail_split [':'] tr _ _ (by simp) (by decide) htr0 htr_nl ?_
  -- the second optional trailing group is left empty
  rw [optTrail_nil]

/-! ## Claims -/

/-- Claim C3: for every well-formed line `:nick!user@host COMMAND target
:trailing` (components are nonempty whitespace-free tokens, the nick
contains no `!`, the target does not begin with `:`, the trailing text is
newline-free, does not begin with one of the trailing-marker characters
`:`/`+`/`-`, and carries no trailing whitespace), `handle_msg` builds a
`com` whose `nick` and `user` fields carry the two origin halves
separately, whose `action` is `COMMAND`, whose `recipient` is `target`,
and whose `message` is `trailing`. -/
theorem handle_msg_parses_wellformed_line (nick uh cmd tgt tr : List Char)
    (hnick_ne : nick ≠ [])
    (hnick : ∀ c ∈ nick, notBang c = true ∧ isWS c = false)
    (huh_ne : uh ≠ []) (huh : ∀ c ∈ uh, isWS c = false)
    (hcmd_ne : cmd ≠ []) (hcmd : ∀ c ∈ cmd, isWS c = false)
    (htgt_ne : tgt ≠ []) (htgt : ∀ c ∈ tgt, isWS c = false)
    (htgt0 : ∀ c ∈ tgt.take 1, ¬ (c = ':'))
    (htr_nl : ∀ c ∈ tr, notNL c = true)
    (htr0 : ∀ c ∈ tr.take 1, isMark c = false)
    (htr_r : rstrip tr = tr) :
    comOf (mkLine nick uh cmd tgt tr) =
      some ⟨nick, uh, cmd, tgt, some tr, mkLine nick uh cmd tgt tr⟩ := by
  have hp := patMatch_wellformed nick uh cmd tgt tr hnick_ne
    (fun c hc => (hnick c hc).1) huh_ne huh hcmd_ne hcmd htgt_ne htgt
    htgt0 htr_nl htr0
  unfold comOf
  rw [hp]
  simp only [Option.map_some', Option.map_some, Option.some.injEq]
  rw [rstrip_of_nonWS nick (fun c hc => (hnick c hc).2),
    rstrip_of_nonWS uh huh, rstrip_of_nonWS cmd hcmd,
    rstrip_of_nonWS tgt htgt]
  simp [htr_r]

/-- Witness for claim C3 at the concrete line
`:nick!user@host PRIVMSG #chan :hello world`. -/
theorem handle_msg_parses_wellformed_line_witness :
    comOf (strData ":nick!user@host PRIVMSG #chan :hello world") =
      some ⟨strData "nick", strData "user@host", strData "PRIVMSG",
        strData "#chan", some (strData "hello world"),
        strData ":nick!user@host PRIVMSG #chan :hello world"⟩ := by
  have h := handle_msg_parses_wellformed_line (strData "nick")
    (strData "user@host") (strData "PRIVMSG") (strData "#chan")
    (strData "hello world") (by decide) (by decide) (by decide) (by decide)
    (by decide) (by decide) (by decide) (by decide) (by decide) (by decide)
    (by decide) (by decide)
  exact h

/-- Claim C1: contrary to the claim, `handle_msg` never invokes any event: for
every inbound chunk the `getattr(self, 'irc_…')` lookup fails (the event
attributes were name-mangled to `_Bot__irc_…`), the `AttributeError` is
swallowed, and no signal's handlers run — even though lines such as
`:nick!user@host PRIVMSG #chan :hello` do parse into a `com`. -/
theorem handle_msg_never_dispatches :
    (∀ data, handleMsgDispatch data = none) ∧
      (comOf (strData ":nick!user@host PRIVMSG #chan :hello")).isSome = true := by
  constructor
  · intro data
    unfold handleMsgDispatch
    cases hc : comOf data with
    | none => rfl
    | some com => exact dispatchTarget_eq_none com.action
  · decide

/-- Claim C2 counterexample: two handlers `0` then `1` subscribed to the same
event; handler `0` raises; the publish invokes only handler `0` — handler
`1` is never called and the exception escapes. -/
theorem publish_exception_not_isolated_cex :
    (publishRun (fun n => decide (n ≠ 0)) (subscribe 1 (subscribe 0 []))).1
        = [0] ∧
    (publishRun (fun n => decide (n ≠ 0)) (subscribe 1 (subscribe 0 []))).2
        = some 0 ∧
    1 ∉ (publishRun (fun n => decide (n ≠ 0)) (subscribe 1 (subscribe 0 []))).1
    := by decide

/-- Claim C2 amended: a handler's exception is NOT isolated.  `Event.__call__`
invokes the handlers before the first raising one, then that handler, and
aborts: the handlers after the first raising one are not invoked and the
exception propagates out of the publish. -/
theorem publish_aborts_at_first_raise (beh : Nat → Bool) (l : List Nat) :
    publishRun beh l =
      (l.takeWhile beh ++ (l.dropWhile beh).take 1,
        (l.dropWhile beh).head?) := by
  induction l with
  | nil => rfl
  | cons h rest ih =>
    cases hb : beh h <;>
      simp [publishRun, hb, ih, List.takeWhile_cons, List.dropWhile_cons]

/-- Claim C4: contrary to the claim, no inbound `PRIVMSG` ever publishes the
synthetic `COMMAND` signal: `on_privmsg` compares the first message
character against `config.get('cchar')`, but the configuration slot is
named `__command_char`, so the lookup falls through to `None` and the
guard is never satisfied — for any configuration contents and any message
text. -/
theorem on_privmsg_never_publishes_command
    (vals : List Char → Option (List Char)) (message : List Char) :
    on_privmsg vals message = none := by
  cases message with
  | nil => rfl
  | cons m0 rest =>
    have hc : configGet vals (strData "cchar") = none := by
      unfold configGet
      rw [if_neg (by decide)]
    unfold on_privmsg
    rw [hc]
    simp

/-- Claim C5: `on_command` terminates the session — sending `QUIT`, closing the
socket and exiting the process — exactly when the sender's nick is in the
hardcoded owner tuple and the first command token is `die`; any other
`COMMAND` event leaves the session alone. -/
theorem on_command_quit_iff (nick tok0 : List Char) :
    (nick ∈ owners ∧ tok0 = strData "die" →
      on_command nick tok0 = quitActs) ∧
    (¬ (nick ∈ owners ∧ tok0 = strData "die") →
      on_command nick tok0 = []) := by
  constructor
  · rintro ⟨h1, h2⟩
    simp [on_command, h1, h2]
  · intro h
    unfold on_command
    by_cases h1 : nick ∈ owners
    · rw [if_pos h1, if_neg (fun h2 => h ⟨h1, h2⟩)]
    · rw [if_neg h1]

/-- Witness for claim C5: the owner `JaINTP` issuing `die` quits; the
non-privileged sender `eve` issuing `die` does not. -/
theorem on_command_quit_iff_witness :
    on_command (strData "JaINTP") (strData "die") = quitActs ∧
    on_command (strData "eve") (strData "die") = [] :=
  ⟨(on_command_quit_iff (strData "JaINTP") (strData "die")).1
      ⟨by decide, rfl⟩,
    (on_command_quit_iff (strData "eve") (strData "die")).2
      (fun h => absurd h.1 (by decide))⟩

/-- Claim C6: a read-loop iteration whose received chunk is `PING :abc123`
sends exactly one string, `PONG :abc123`, whatever channel is
configured (the loop answers PING before any parsing or dispatch, so no
controller state is consulted). -/
theorem mainloop_ping_pong (channel : List Char) :
    mainloopIter channel (strData "PING :abc123") =
      [strData "PONG :abc123"] := rfl

/-- Claim C7 counterexample: the bare keep-alive line `PING :token` does NOT
parse — the pattern demands a leading `:nick!…` origin, so `handle_msg`
builds no `com` at all for it. -/
theorem parser_rejects_ping_cex :
    comOf (strData "PING :token") = none := rfl

/-- Claim C7 amended: the parser rejects every line that lacks the leading `:`
of an origin prefix (in particular `PING :token` yields no `Message`);
the keep-alive is instead answered by the read loop's `startswith('PING')`
check before any parsing. -/
theorem parser_requires_origin_amended :
    (∀ data, data.take 1 ≠ [':'] → patMatch data = none) ∧
    (∀ channel, mainloopIter channel (strData "PING :token") =
      [strData "PONG :token"]) := by
  constructor
  · intro data h
    cases data with
    | nil => rfl
    | cons c0 s1 =>
      unfold patMatch
      exact matchChar_ne ':' c0 s1 _ (fun hc => h (by simp [hc]))
  · intro channel
    rfl

/-- Witness for claim C7 (amended): a registration line with no origin prefix
is rejected by the parser. -/
theorem parser_requires_origin_witness :
    patMatch (strData "NICK pybot") = none :=
  parser_requires_origin_amended.1 (strData "NICK pybot") (by decide)

/-- Publishing with no failing handler invokes exactly the subscribed
handlers, in order. -/
theorem publishRun_all_ok (l : List Nat) :
    publishRun (fun _ => true) l = (l, none) := by
  induction l with
  | nil => rfl
  | cons h rest ih => simp [publishRun, ih]

/-- Claim C8: on a handler list with no duplicate of `h` (the invariant every
reachable `Event` state satisfies), subscribing `h` twice yields exactly
one invocation of `h` per publish, the second subscription being a no-op;
after unsubscribing `h` a publish invokes `h` zero times; and
unsubscribing an `h` that is not subscribed leaves the list unchanged
(no error). -/
theorem event_subscribe_unsubscribe_laws (h : Nat) (l : List Nat)
    (hc : l.count h ≤ 1) :
    (publishRun (fun _ => true) (subscribe h (subscribe h l))).1.count h
        = 1 ∧
    subscribe h (subscribe h l) = subscribe h l ∧
    (publishRun (fun _ => true) (unsubscribe h l)).1.count h = 0 ∧
    (h ∉ l → unsubscribe h l = l) := by
  rw [publishRun_all_ok, publishRun_all_ok]
  by_cases hm : h ∈ l
  · have h1 : subscribe h l = l := by rw [subscribe, if_pos hm]
    have hcnt : l.count h = 1 := by
      have := List.count_pos_iff.mpr hm
      omega
    refine ⟨?_, ?_, ?_, fun hn => absurd hm hn⟩
    · rw [h1, h1, hcnt]
    · rw [h1, h1]
    · rw [unsubscribe, if_pos hm]
      rw [List.count_erase_self]
      omega
  · have h0 : l.count h = 0 := List.count_eq_zero.mpr hm
    have h1 : subscribe h l = l ++ [h] := by rw [subscribe, if_neg hm]
    have hm2 : h ∈ l ++ [h] := by simp
    refine ⟨?_, ?_, ?_, fun _ => by rw [unsubscribe, if_neg hm]⟩
    · rw [h1, subscribe, if_pos hm2, List.count_append, h0]
      simp
    · rw [h1, subscribe, if_pos hm2]
    · rw [unsubscribe, if_neg hm, h0]

/-- Witness for claim C8 at the concrete state `[3]` with handler `5`. -/
theorem event_subscribe_unsubscribe_laws_witness :
    (publishRun (fun _ => true) (subscribe 5 (subscribe 5 [3]))).1.count 5
        = 1 ∧
    subscribe 5 (subscribe 5 [3]) = subscribe 5 [3] ∧
    (publishRun (fun _ => true) (unsubscribe 5 [3])).1.count 5 = 0 ∧
    (5 ∉ [3] → unsubscribe 5 [3] = [3]) :=
  event_subscribe_unsubscribe_laws 5 [3] (by decide)

/-- Claim C9 counterexample: with debug off and the socket write raising, the
caller of `send` sees no error and nothing is logged — the write failure
is silently dropped, contradicting the claim that failures are reported
to the caller. -/
theorem send_failure_swallowed_cex :
    (send false (some (strData "broken pipe"))
      (strData "PRIVMSG #chan :hi")).callerExc = none ∧
    (send false (some (strData "broken pipe"))
      (strData "PRIVMSG #chan :hi")).log = [] := by decide

/-- Claim C9 amended: every outbound send appends CRLF to the text before
transmission, but a write failure is never reported to `send`'s caller:
the exception is caught inside `send` and at most logged through the
debug channel (so with debug off it is dropped entirely). -/
theorem send_crlf_and_swallows_failures (debug : Bool)
    (sockErr : Option (List Char)) (s : List Char) :
    (send debug sockErr s).callerExc = none ∧
    (sockErr = none → (send debug sockErr s).wire = some (s ++ crlf)) ∧
    (∀ e, sockErr = some e →
      (send debug sockErr s).wire = none ∧
      (send debug sockErr s).log = debug_out debug e) := by
  cases sockErr <;> simp [send]

/-- Witness for claim C9 (amended) at a concrete successful and a concrete
failing send. -/
theorem send_crlf_and_swallows_failures_witness :
    (send true none (strData "QUIT")).wire =
      some (strData "QUIT" ++ crlf) ∧
    (send true (some (strData "timed out")) (strData "QUIT")).log =
      debug_out true (strData "timed out") :=
  ⟨(send_crlf_and_swallows_failures true none (strData "QUIT")).2.1 rfl,
    ((send_crlf_and_swallows_failures true (some (strData "timed out"))
      (strData "QUIT")).2.2 (strData "timed out") rfl).2⟩

/-- Claim C10: the handler list of an `Event` is duplicate-free at all times:
the initial list is empty (hence duplicate-free), subscribe and
unsubscribe preserve the invariant, and a publish returns the list
unchanged. -/
theorem event_handlers_nodup_invariant (l : List Nat) (h : Nat)
    (beh : Nat → Bool) (hl : l.Nodup) :
    ([] : List Nat).Nodup ∧
    (subscribe h l).Nodup ∧
    (unsubscribe h l).Nodup ∧
    (eventCall beh l).2 = l := by
  refine ⟨List.nodup_nil, ?_, ?_, rfl⟩
  · unfold subscribe
    by_cases hm : h ∈ l
    · rw [if_pos hm]; exact hl
    · rw [if_neg hm, List.nodup_append]
      exact ⟨hl, List.nodup_singleton h,
        by simpa [List.disjoint_singleton] using hm⟩
  · unfold unsubscribe
    by_cases hm : h ∈ l
    · rw [if_pos hm]; exact hl.erase h
    · rw [if_neg hm]; exact hl

/-- Witness for claim C10 at the concrete duplicate-free state `[1, 2]`. -/
theorem event_handlers_nodup_invariant_witness :
    ([] : List Nat).Nodup ∧
    (subscribe 2 [1, 2]).Nodup ∧
    (unsubscribe 2 [1, 2]).Nodup ∧
    (eventCall (fun _ => true) [1, 2]).2 = [1, 2] :=
  event_handlers_nodup_invariant [1, 2] 2 (fun _ => true) (by decide)
